import Mathlib

/-!
Verification of the stochastic simulation and statistical summarization core
of the nordic-financial-planner repository, as a shallow embedding in Lean.

Conventions of the embedding:
* JavaScript numbers are modelled as exact rationals (`ℚ`); the single
  irrational operation of the core, `Math.sqrt` in the standard-deviation
  computation, is modelled in `ℝ`.
* Integer-valued inputs that the spec allows to be non-positive
  (`timeHorizon`, `numSimulations`) are modelled as `ℤ`.
* `Math.random()`-driven bootstrap sampling is modelled by passing the drawn
  index stream explicitly (`rnd : ℕ → ℕ` per trial).
* A JavaScript function that can throw is modelled as `Except String`;
  `new Array(n)` with a negative `n` throws a `RangeError`, which the
  embedding reflects where the source can reach it.
* JavaScript objects whose field set is under discussion are modelled as
  association lists from field names to values, mirroring property access.
-/

/-- `NORWEGIAN_TAX_RATE` from `monteCarloEngine.js`: 37.84% capital gains tax. -/
def NORWEGIAN_TAX_RATE : ℚ := 0.3784

/-- The simulation-parameters record destructured by `runSimulation` and
`runSimulationWithTimeSeries` (`monteCarloEngine.js`): monthly NOK amount,
horizon in years, annual mortgage rate, stock allocation in percent (0-100),
and the trial count. -/
structure SimulationParams where
  monthlyInvestment : ℚ
  timeHorizon : ℤ
  mortgageRate : ℚ
  stockAllocation : ℚ
  numSimulations : ℤ
deriving DecidableEq

/-- The engine state of `class MonteCarloEngine`: the historical annual
returns (`this.returns`). The precomputed mean and std-dev fields are unused
by the simulation functions and omitted. -/
structure MonteCarloEngine where
  returns : List ℚ
deriving DecidableEq

/-- `generateReturnPath` (`monteCarloEngine.js` lines 64-72): one bootstrap
path of length `years`. The random index `Math.floor(Math.random() * len)`
drawn at year `k` is modelled by `rnd k`; in the source it always lies in
`[0, len)`, so the `getD` default is never read there. -/
def generateReturnPath (e : MonteCarloEngine) (rnd : ℕ → ℕ) (years : ℕ) : List ℚ :=
  (List.range years).map fun k => e.returns.getD (rnd k) 0

/-- `calculateMortgageSavingsValue` (`monteCarloEngine.js` lines 129-143):
future value of an ordinary annuity at the monthly mortgage rate. -/
def calculateMortgageSavingsValue (monthlyPayment : ℚ) (years : ℤ) (annualRate : ℚ) : ℚ :=
  let monthlyRate := annualRate / 12
  let totalMonths : ℤ := years * 12
  if monthlyRate = 0 then
    monthlyPayment * totalMonths
  else
    monthlyPayment * (((1 + monthlyRate) ^ totalMonths - 1) / monthlyRate)

/-- The year loop of `calculateStockScenario` (`monteCarloEngine.js` lines
85-95), one iteration per element of `returns`: the pair is
`(stockValue, totalInvested)` after the loop, starting from `(0, 0)`. -/
def stockLoop (monthlyToStock : ℚ) (returns : List ℚ) : ℚ × ℚ :=
  returns.foldl
    (fun acc annualReturn =>
      ((acc.1 + monthlyToStock * 12) * (1 + annualReturn), acc.2 + monthlyToStock * 12))
    (0, 0)

/-- `calculateStockScenario` (`monteCarloEngine.js` lines 78-110): after-tax
stock value plus the mortgage-savings value of the non-stock allocation. -/
def calculateStockScenario (monthlyAmount allocation : ℚ) (returns : List ℚ)
    (mortgageRate : ℚ) (years : ℤ) : ℚ :=
  let acc := stockLoop (monthlyAmount * allocation) returns
  let capitalGains := max 0 (acc.1 - acc.2)
  let tax := capitalGains * NORWEGIAN_TAX_RATE
  let afterTaxStockValue := acc.1 - tax
  afterTaxStockValue +
    calculateMortgageSavingsValue (monthlyAmount * (1 - allocation)) years mortgageRate

/-- `calculateMortgageScenario` (`monteCarloEngine.js` lines 116-118). -/
def calculateMortgageScenario (monthlyAmount : ℚ) (years : ℤ) (mortgageRate : ℚ) : ℚ :=
  calculateMortgageSavingsValue monthlyAmount years mortgageRate

/-- `runSimulation` (`monteCarloEngine.js` lines 20-58). The body performs no
parameter validation; the only failure the source can reach is the JavaScript
`RangeError` of `new Array(n)` for a negative length (`new Array(numSimulations)`
at line 29, `new Array(years)` inside `generateReturnPath` once the trial loop
runs). `rnd i` is the index stream of trial `i`. -/
def runSimulation (e : MonteCarloEngine) (rnd : ℕ → ℕ → ℕ) (p : SimulationParams) :
    Except String (List ℚ × List ℚ) :=
  if p.numSimulations < 0 then
    Except.error ("Invalid array length")
  else if 0 < p.numSimulations ∧ p.timeHorizon < 0 then
    Except.error ("Invalid array length")
  else
    Except.ok
      ((List.range p.numSimulations.toNat).map fun i =>
          calculateStockScenario p.monthlyInvestment (p.stockAllocation / 100)
            (generateReturnPath e (rnd i) p.timeHorizon.toNat) p.mortgageRate p.timeHorizon,
       (List.range p.numSimulations.toNat).map fun _ =>
          calculateMortgageScenario p.monthlyInvestment p.timeHorizon p.mortgageRate)

/-- The per-year stock values written by the loop of
`calculateStockScenarioWithPath` (`monteCarloEngine.js` lines 209-215): the
value of `stockValue` at the end of each iteration, one entry per element of
`returns`, starting the accumulation at `sv`. -/
def stockYearlyValues (monthlyToStock : ℚ) : ℚ → List ℚ → List ℚ
  | _, [] => []
  | sv, annualReturn :: rest =>
    (sv + monthlyToStock * 12) * (1 + annualReturn) ::
      stockYearlyValues monthlyToStock ((sv + monthlyToStock * 12) * (1 + annualReturn)) rest

/-- `calculateStockScenarioWithPath` (`monteCarloEngine.js` lines 200-231):
the final value (same computation as `calculateStockScenario`) together with
`yearlyValues`. The source allocates `new Array(years + 1)` and writes index 0
plus one slot per element of `returns`; the embedding keeps the written
entries, so the list has length `returns.length + 1` (equal to `years + 1`
exactly when the path has length `years`). -/
def calculateStockScenarioWithPath (monthlyAmount allocation : ℚ) (returns : List ℚ)
    (mortgageRate : ℚ) (years : ℤ) : ℚ × List ℚ :=
  let acc := stockLoop (monthlyAmount * allocation) returns
  let capitalGains := max 0 (acc.1 - acc.2)
  let tax := capitalGains * NORWEGIAN_TAX_RATE
  let afterTaxStockValue := acc.1 - tax
  (afterTaxStockValue +
      calculateMortgageSavingsValue (monthlyAmount * (1 - allocation)) years mortgageRate,
   0 :: stockYearlyValues (monthlyAmount * allocation) 0 returns)

/-- `calculateMortgagePath` (`monteCarloEngine.js` lines 236-251):
`path[0] = 0`, then for each year `1..years` the same annuity formula as
`calculateMortgageSavingsValue`, which the source repeats verbatim in the
loop body. -/
def calculateMortgagePath (monthlyPayment : ℚ) (years : ℤ) (annualRate : ℚ) : List ℚ :=
  0 :: (List.range years.toNat).map fun k =>
    calculateMortgageSavingsValue monthlyPayment (k + 1) annualRate

/-- The result record of `runSimulationWithTimeSeries`. -/
structure TimeSeriesResult where
  stock : List ℚ
  mortgage : List ℚ
  stockPaths : List (List ℚ)
  mortgagePath : List ℚ
deriving DecidableEq

/-- `runSimulationWithTimeSeries` (`monteCarloEngine.js` lines 149-194). As in
`runSimulation`, the only reachable failures are `RangeError`s from negative
array lengths: `new Array(numSimulations)` at line 158, `new Array(years)`
inside `generateReturnPath` when the loop runs, and `new Array(years + 1)`
inside `calculateMortgagePath`. -/
def runSimulationWithTimeSeries (e : MonteCarloEngine) (rnd : ℕ → ℕ → ℕ)
    (p : SimulationParams) : Except String TimeSeriesResult :=
  if p.numSimulations < 0 then
    Except.error ("Invalid array length")
  else if 0 < p.numSimulations ∧ p.timeHorizon < 0 then
    Except.error ("Invalid array length")
  else if p.timeHorizon + 1 < 0 then
    Except.error ("Invalid array length")
  else
    Except.ok
      { stock := (List.range p.numSimulations.toNat).map fun i =>
          (calculateStockScenarioWithPath p.monthlyInvestment (p.stockAllocation / 100)
            (generateReturnPath e (rnd i) p.timeHorizon.toNat) p.mortgageRate p.timeHorizon).1
        mortgage := (List.range p.numSimulations.toNat).map fun _ =>
          calculateMortgageScenario p.monthlyInvestment p.timeHorizon p.mortgageRate
        stockPaths := (List.range p.numSimulations.toNat).map fun i =>
          (calculateStockScenarioWithPath p.monthlyInvestment (p.stockAllocation / 100)
            (generateReturnPath e (rnd i) p.timeHorizon.toNat) p.mortgageRate p.timeHorizon).2
        mortgagePath :=
          calculateMortgagePath p.monthlyInvestment p.timeHorizon p.mortgageRate }

/-- `TaxCalculator.CAPITAL_GAINS_RATE` (`taxCalculator.js`). -/
def CAPITAL_GAINS_RATE : ℚ := 0.3784

/-- `TaxCalculator.STEP_UP_FACTOR` (`taxCalculator.js`). -/
def STEP_UP_FACTOR : ℚ := 1.72

/-- `TaxCalculator.FLAT_RATE` (`taxCalculator.js`). -/
def FLAT_RATE : ℚ := 0.22

/-- `TaxCalculator.calculateCapitalGainsTax` (`taxCalculator.js` lines 20-27):
direct method, gains times the 37.84% effective rate. -/
def calculateCapitalGainsTax (totalValue costBasis : ℚ) : ℚ :=
  let capitalGains := max 0 (totalValue - costBasis)
  capitalGains * CAPITAL_GAINS_RATE

/-- `TaxCalculator.calculateCapitalGainsTaxStepUp` (`taxCalculator.js` lines
37-45): step-up method, gains times 1.72 times the 22% flat rate. -/
def calculateCapitalGainsTaxStepUp (totalValue costBasis : ℚ) : ℚ :=
  let capitalGains := max 0 (totalValue - costBasis)
  let steppedUpGains := capitalGains * STEP_UP_FACTOR
  steppedUpGains * FLAT_RATE

/-- The nearest-rank index `Math.floor(n * p)` used by every percentile
computation of the statistics code. -/
def pctIndex (n : ℕ) (p : ℚ) : ℕ := (⌊(n : ℚ) * p⌋).toNat

/-- The percentile record of `HistogramBinner.calculatePercentiles`
(`taxCalculator.js` lines 200-211). -/
structure Percentiles where
  p5 : ℚ
  p25 : ℚ
  p50 : ℚ
  p75 : ℚ
  p95 : ℚ
deriving DecidableEq

/-- `HistogramBinner.calculatePercentiles` (`taxCalculator.js` lines 200-211):
nearest-rank percentiles over a sorted copy, with no index clamping. -/
def calculatePercentiles (data : List ℚ) : Percentiles :=
  let sorted := data.insertionSort (· ≤ ·)
  let n := sorted.length
  { p5 := sorted.getD (pctIndex n 0.05) 0
    p25 := sorted.getD (pctIndex n 0.25) 0
    p50 := sorted.getD (pctIndex n 0.50) 0
    p75 := sorted.getD (pctIndex n 0.75) 0
    p95 := sorted.getD (pctIndex n 0.95) 0 }

/-- `HistogramBinner.calculateStatistics` (`taxCalculator.js` lines 218-245):
`null` for a missing/empty input, otherwise the statistics object. The
returned JavaScript object is modelled as the association list of its fields
in construction order: `mean`, `median`, `stdDev`, `min`, `max`, then the
spread of `calculatePercentiles` (`p5`, `p25`, `p50`, `p75`, `p95`).
`Math.sqrt` forces the value type into `ℝ`. -/
noncomputable def calculateStatistics (data : List ℚ) : Option (List (String × ℝ)) :=
  if data.length = 0 then none
  else
    let sorted := data.insertionSort (· ≤ ·)
    let n := data.length
    let mean := data.sum / (n : ℚ)
    let variance := (data.map fun v => (v - mean) ^ 2).sum / (n : ℚ)
    let stdDev : ℝ := Real.sqrt ((variance : ℚ) : ℝ)
    let ps := calculatePercentiles data
    some [("mean", (mean : ℝ)), ("median", (ps.p50 : ℝ)), ("stdDev", stdDev),
          ("min", (sorted.getD 0 0 : ℝ)), ("max", (sorted.getD (n - 1) 0 : ℝ)),
          ("p5", (ps.p5 : ℝ)), ("p25", (ps.p25 : ℝ)), ("p50", (ps.p50 : ℝ)),
          ("p75", (ps.p75 : ℝ)), ("p95", (ps.p95 : ℝ))]

/-- `HistogramBinner.calculateOutperformanceProbability` (`taxCalculator.js`
lines 253-266): throws on a length mismatch, otherwise counts the indices
where `data1[i] > data2[i]` and divides by the length. -/
def calculateOutperformanceProbability (data1 data2 : List ℚ) : Except String ℚ :=
  if data1.length ≠ data2.length then
    Except.error ("Data arrays must have equal length")
  else
    let wins :=
      (List.range data1.length).countP fun i => decide (data2.getD i 0 < data1.getD i 0)
    Except.ok ((wins : ℚ) / (data1.length : ℚ))

/-- One histogram bin of `HistogramBinner.binData` (`taxCalculator.js`). -/
structure HistogramBin where
  binStart : ℚ
  binEnd : ℚ
  count : ℕ
  midpoint : ℚ
  percentage : ℚ
deriving DecidableEq, Inhabited

/-- `HistogramBinner.calculateOptimalBins` (`taxCalculator.js` lines 176-193):
Freedman-Diaconis bin count clamped to `[20, 60]`. `cbrtN` stands for the
irrational `Math.pow(n, 1/3)`, passed abstractly so the rest stays exact. -/
def calculateOptimalBins (cbrtN : ℚ) (sortedData : List ℚ) : ℕ :=
  let n := sortedData.length
  let q1 := sortedData.getD (pctIndex n 0.25) 0
  let q3 := sortedData.getD (pctIndex n 0.75) 0
  let iqr := q3 - q1
  let binWidth := 2 * iqr / cbrtN
  let range := sortedData.getD (n - 1) 0 - sortedData.getD 0 0
  let numBins := if 0 < binWidth then (⌈range / binWidth⌉).toNat else 30
  max 20 (min 60 numBins)

/-- The bin index assignment of the counting loop of `binData`
(`taxCalculator.js` lines 149-155): `Math.min(Math.floor((value - min) /
binWidth), numBins - 1)`. -/
def binIndexOf (mn binWidth : ℚ) (numBins : ℕ) (value : ℚ) : ℕ :=
  min (⌊(value - mn) / binWidth⌋).toNat (numBins - 1)

/-- `HistogramBinner.binData` (`taxCalculator.js` lines 108-164). `numBinsArg
= none` is the `numBins = null` default, which computes the bin count by
`calculateOptimalBins` (its cube root supplied as `cbrtN`). Returns `[]` for
an empty input, one full-count degenerate bin when all values coincide, and
otherwise `numBins` equal-width bins whose counts come from assigning every
value the index `binIndexOf`. -/
def binData (cbrtN : ℚ) (data : List ℚ) (numBinsArg : Option ℕ) : List HistogramBin :=
  if data.length = 0 then []
  else
    let sortedData := data.insertionSort (· ≤ ·)
    let numBins : ℕ :=
      match numBinsArg with
      | none => calculateOptimalBins cbrtN sortedData
      | some b => b
    let mn := sortedData.getD 0 0
    let mx := sortedData.getD (sortedData.length - 1) 0
    if mn = mx then
      [{ binStart := mn, binEnd := mx, count := data.length, midpoint := mn,
         percentage := 100 }]
    else
      let binWidth := (mx - mn) / (numBins : ℚ)
      (List.range numBins).map fun (i : ℕ) =>
        { binStart := mn + (i : ℚ) * binWidth
          binEnd := mn + ((i : ℚ) + 1) * binWidth
          count := sortedData.countP fun v => binIndexOf mn binWidth numBins v == i
          midpoint := mn + ((i : ℚ) + 0.5) * binWidth
          percentage :=
            ((sortedData.countP fun v => binIndexOf mn binWidth numBins v == i : ℕ) : ℚ) /
              (data.length : ℚ) * 100 }

/-- One record of `computeTimeSeriesBands` (`timeSeriesStats.js`). -/
structure PercentileBand where
  year : ℕ
  p5 : ℚ
  p25 : ℚ
  p50 : ℚ
  p75 : ℚ
  p95 : ℚ
  mean : ℚ
deriving DecidableEq

/-- `computeTimeSeriesBands` (`timeSeriesStats.js` lines 7-35): for each year
`0..years`, sort the column `paths[i][y]` across trials and read the
nearest-rank percentiles and the mean. Out-of-range column reads (`paths[i][y]`
with a short row) would be `undefined` in the source; the embedding defaults
them to `0`, which the claims' row-length precondition never exercises. -/
def computeTimeSeriesBands (paths : List (List ℚ)) (years : ℕ) : List PercentileBand :=
  let numSims := paths.length
  (List.range (years + 1)).map fun y =>
    let values := (paths.map fun row => row.getD y 0).insertionSort (· ≤ ·)
    { year := y
      p5 := values.getD (pctIndex numSims 0.05) 0
      p25 := values.getD (pctIndex numSims 0.25) 0
      p50 := values.getD (pctIndex numSims 0.50) 0
      p75 := values.getD (pctIndex numSims 0.75) 0
      p95 := values.getD (pctIndex numSims 0.95) 0
      mean := values.sum / (numSims : ℚ) }

/-- Modelled from the spec: the invalid-parameter domain of §7 / §4.3 —
non-positive horizon or trial count, or an allocation fraction (the percent
field divided by 100) outside `[0, 1]`. -/
def InvalidParams (p : SimulationParams) : Prop :=
  p.timeHorizon ≤ 0 ∨ p.numSimulations ≤ 0 ∨
    p.stockAllocation / 100 < 0 ∨ 1 < p.stockAllocation / 100

/-- Modelled from the spec: the valid-parameter domain of §3 — positive
monthly surplus, positive horizon, nonnegative mortgage rate, allocation
percent within `[0, 100]`, positive trial count. -/
def ValidParams (p : SimulationParams) : Prop :=
  0 < p.monthlyInvestment ∧ 0 < p.timeHorizon ∧ 0 ≤ p.mortgageRate ∧
    0 ≤ p.stockAllocation ∧ p.stockAllocation ≤ 100 ∧ 0 < p.numSimulations

instance (p : SimulationParams) : Decidable (InvalidParams p) := by
  unfold InvalidParams; infer_instance

instance (p : SimulationParams) : Decidable (ValidParams p) := by
  unfold ValidParams; infer_instance

/-- The properties claimed of the histogram bins: counts sum to the input
length, adjacent bins are contiguous (each bin's end is the next bin's start)
and ascending, the first bin starts at the input minimum and the last bin ends
at the input maximum. -/
def BinProps (data : List ℚ) (bins : List HistogramBin) : Prop :=
  ((bins.map fun b => b.count).sum = data.length) ∧
  (∀ i, i + 1 < bins.length →
    (bins.getD i default).binEnd = (bins.getD (i + 1) default).binStart) ∧
  (∀ i, i + 1 < bins.length →
    (bins.getD i default).binStart < (bins.getD (i + 1) default).binStart) ∧
  ((bins.getD 0 default).binStart ∈ data ∧
    ∀ v ∈ data, (bins.getD 0 default).binStart ≤ v) ∧
  ((bins.getD (bins.length - 1) default).binEnd ∈ data ∧
    ∀ v ∈ data, v ≤ (bins.getD (bins.length - 1) default).binEnd)

/-! ## Helper lemmas -/

lemma stockLoop_zero : ∀ l : List ℚ, stockLoop 0 l = (0, 0) := by
  intro l
  induction l with
  | nil => rfl
  | cons a t ih =>
    have h : stockLoop 0 (a :: t) = stockLoop 0 t := by
      simp [stockLoop]
    rw [h, ih]

lemma stockLoop_go_snd (c : ℚ) (l : List ℚ) :
    ∀ sv ti : ℚ,
      (l.foldl (fun acc r => ((acc.1 + c * 12) * (1 + r), acc.2 + c * 12)) (sv, ti)).2 =
        ti + c * 12 * l.length := by
  induction l with
  | nil => intro sv ti; simp
  | cons a t ih =>
    intro sv ti
    rw [List.foldl_cons, ih]
    push_cast [List.length_cons]
    ring

lemma stockLoop_snd (c : ℚ) (l : List ℚ) : (stockLoop c l).2 = c * 12 * l.length := by
  have h := stockLoop_go_snd c l 0 0
  simpa [stockLoop] using h

lemma stockYearlyValues_length (c : ℚ) :
    ∀ (l : List ℚ) (sv : ℚ), (stockYearlyValues c sv l).length = l.length := by
  intro l
  induction l with
  | nil => intro sv; rfl
  | cons a t ih => intro sv; simp [stockYearlyValues, ih]

/-! ## Claim theorems -/

/-- C4: for allocation fraction 0, for every return path and every monthly
surplus, horizon and mortgage rate, the stock-scenario final value equals the
mortgage-savings value on the full monthly surplus over the same horizon and
rate, i.e. the mortgage-scenario outcome. -/
theorem calculateStockScenario_allocation_zero (m r : ℚ) (rets : List ℚ) (y : ℤ) :
    calculateStockScenario m 0 rets r y = calculateMortgageScenario m y r := by
  unfold calculateStockScenario calculateMortgageScenario
  rw [mul_zero, stockLoop_zero]
  norm_num

/-- C6: with annual rate 0 the mortgage-savings value is exactly
`P * (12 * y)`; in particular 10,000 per month over 10 years yields exactly
1,200,000. -/
theorem calculateMortgageSavingsValue_zero_rate :
    (∀ (P : ℚ) (y : ℤ), calculateMortgageSavingsValue P y 0 = P * (12 * y)) ∧
      calculateMortgageSavingsValue 10000 10 0 = 1200000 := by
  constructor
  · intro P y
    have h : calculateMortgageSavingsValue P y 0 = P * ((y * 12 : ℤ) : ℚ) := by
      simp [calculateMortgageSavingsValue]
    rw [h]
    push_cast
    ring
  · norm_num [calculateMortgageSavingsValue]

/-- C9: the stock accumulation of `calculateStockScenario` and
`calculateStockScenarioWithPath` is driven by the length of the return path,
not by the `years` argument: the two scenario values differ only in the
mortgage-savings term computed over `years` (first conjunct), the loop makes
one yearly contribution per path element (second conjunct), and the recorded
yearly values have length `path length + 1` whatever `years` is (third
conjunct); the two functions compute the same final value (fourth conjunct),
so they agree with a `years`-step accumulation only when the path has length
`years`. -/
theorem stockScenario_steps_follow_path_length (m a r : ℚ) (rets : List ℚ) (y1 y2 : ℤ) :
    (calculateStockScenario m a rets r y1 -
        calculateMortgageSavingsValue (m * (1 - a)) y1 r =
      calculateStockScenario m a rets r y2 -
        calculateMortgageSavingsValue (m * (1 - a)) y2 r) ∧
    (stockLoop (m * a) rets).2 = m * a * 12 * rets.length ∧
    (calculateStockScenarioWithPath m a rets r y1).2.length = rets.length + 1 ∧
    (calculateStockScenarioWithPath m a rets r y1).1 = calculateStockScenario m a rets r y1 := by
  refine ⟨?_, ?_, ?_, ?_⟩
  · unfold calculateStockScenario
    ring
  · rw [stockLoop_snd]
  · simp [calculateStockScenarioWithPath, stockYearlyValues_length]
  · rfl

/-- C10: the step-up tax method (gains times 1.72 times 22%) agrees with the
direct method (gains times 37.84%) for every total value and cost basis, over
exact arithmetic. -/
theorem stepUp_tax_equals_direct_tax (tv cb : ℚ) :
    calculateCapitalGainsTaxStepUp tv cb = calculateCapitalGainsTax tv cb := by
  unfold calculateCapitalGainsTaxStepUp calculateCapitalGainsTax
  norm_num [STEP_UP_FACTOR, FLAT_RATE, CAPITAL_GAINS_RATE]
  ring

lemma winsLoop_eq_zip : ∀ (a b : List ℚ), a.length = b.length →
    ((List.range a.length).countP fun i => decide (b.getD i 0 < a.getD i 0)) =
      (a.zip b).countP fun p => decide (p.2 < p.1) := by
  intro a
  induction a with
  | nil => intro b h; simp
  | cons x xs ih =>
    intro b h
    cases b with
    | nil => simp at h
    | cons y ys =>
      have hlen : xs.length = ys.length := by simpa using h
      rw [List.length_cons, List.range_succ_eq_map, List.countP_cons, List.countP_map,
        List.zip_cons_cons, List.countP_cons]
      have hfun :
          ((fun i => decide (List.getD (y :: ys) i 0 < List.getD (x :: xs) i 0)) ∘ Nat.succ) =
            fun i => decide (List.getD ys i 0 < List.getD xs i 0) := by
        funext i
        simp
      rw [hfun, ih ys hlen]
      simp

lemma countP_lt_gt_eq : ∀ l : List (ℚ × ℚ),
    (l.countP fun p => decide (p.2 < p.1)) + (l.countP fun p => decide (p.1 < p.2)) +
      (l.countP fun p => decide (p.1 = p.2)) = l.length := by
  intro l
  induction l with
  | nil => simp
  | cons q t ih =>
    simp only [List.countP_cons, List.length_cons]
    rcases lt_trichotomy q.1 q.2 with h | h | h
    · rw [if_neg (by simp [asymm h]), if_pos (by simp [h]), if_neg (by simp [ne_of_lt h])]
      omega
    · rw [if_neg (by simp [h]), if_neg (by simp [h]), if_pos (by simp [h])]
      omega
    · rw [if_pos (by simp [h]), if_neg (by simp [asymm h]), if_neg (by simp [(ne_of_gt h)])]
      omega

/-- C7: `calculateOutperformanceProbability` reports the length-mismatch error
exactly when the input lengths differ; on equal lengths it returns the number
of indices where the first collection strictly exceeds the second, divided by
the length, and the strict comparisons partition the pairs into wins, losses
and ties (ties count as neither). -/
theorem calculateOutperformanceProbability_spec (a b : List ℚ) :
    (a.length ≠ b.length ↔
      calculateOutperformanceProbability a b =
        Except.error ("Data arrays must have equal length")) ∧
    (a.length = b.length →
      calculateOutperformanceProbability a b =
        Except.ok ((((a.zip b).countP fun p => decide (p.2 < p.1)) : ℚ) / (a.length : ℚ))) ∧
    (a.length = b.length →
      ((a.zip b).countP fun p => decide (p.2 < p.1)) +
          ((a.zip b).countP fun p => decide (p.1 < p.2)) +
          ((a.zip b).countP fun p => decide (p.1 = p.2)) = a.length) := by
  refine ⟨⟨fun h => ?_, fun h => ?_⟩, fun h => ?_, fun h => ?_⟩
  · simp only [calculateOutperformanceProbability]
    rw [if_pos h]
  · intro heq
    simp only [calculateOutperformanceProbability] at h
    rw [if_neg (not_not_intro heq)] at h
    exact Except.noConfusion h
  · simp only [calculateOutperformanceProbability]
    rw [if_neg (by simp [h]), winsLoop_eq_zip a b h]
  · rw [countP_lt_gt_eq (a.zip b), List.length_zip, h, Nat.min_self]

/-- Witness for C7 at a concrete pair of equal-length collections. -/
theorem calculateOutperformanceProbability_spec_witness :
    ([1, 2] : List ℚ).length = ([2, 1] : List ℚ).length ∧
      calculateOutperformanceProbability ([1, 2] : List ℚ) ([2, 1] : List ℚ) =
        Except.ok (((([1, 2] : List ℚ).zip ([2, 1] : List ℚ)).countP
            fun p => decide (p.2 < p.1) : ℚ) / (([1, 2] : List ℚ).length : ℚ)) ∧
      (((([1, 2] : List ℚ).zip ([2, 1] : List ℚ)).countP fun p => decide (p.2 < p.1)) +
          ((([1, 2] : List ℚ).zip ([2, 1] : List ℚ)).countP fun p => decide (p.1 < p.2)) +
          ((([1, 2] : List ℚ).zip ([2, 1] : List ℚ)).countP fun p => decide (p.1 = p.2)) =
        ([1, 2] : List ℚ).length) :=
  ⟨rfl, (calculateOutperformanceProbability_spec [1, 2] [2, 1]).2.1 rfl,
    (calculateOutperformanceProbability_spec [1, 2] [2, 1]).2.2 rfl⟩

lemma sorted_getD_le (s : List ℚ) (hs : s.Sorted (· ≤ ·)) {i j : ℕ} (hij : i ≤ j)
    (hj : j < s.length) : s.getD i 0 ≤ s.getD j 0 := by
  have hi : i < s.length := lt_of_le_of_lt hij hj
  rw [List.getD_eq_getElem s 0 hi, List.getD_eq_getElem s 0 hj]
  have h := hs.rel_get_of_le (a := ⟨i, hi⟩) (b := ⟨j, hj⟩) (by simpa using hij)
  simpa [List.get_eq_getElem] using h

lemma sorted_getD_zero_le (s : List ℚ) (hs : s.Sorted (· ≤ ·)) (v : ℚ) (hv : v ∈ s) :
    s.getD 0 0 ≤ v := by
  obtain ⟨⟨k, hk⟩, rfl⟩ := List.mem_iff_get.mp hv
  have h0 : 0 < s.length := lt_of_le_of_lt (Nat.zero_le k) hk
  rw [List.getD_eq_getElem s 0 h0]
  have h := hs.rel_get_of_le (a := ⟨0, h0⟩) (b := ⟨k, hk⟩) (by simp)
  simpa [List.get_eq_getElem] using h

lemma sorted_le_getD_last (s : List ℚ) (hs : s.Sorted (· ≤ ·)) (v : ℚ) (hv : v ∈ s) :
    v ≤ s.getD (s.length - 1) 0 := by
  obtain ⟨⟨k, hk⟩, rfl⟩ := List.mem_iff_get.mp hv
  have h0 : 0 < s.length := lt_of_le_of_lt (Nat.zero_le k) hk
  have hlast : s.length - 1 < s.length := Nat.sub_lt h0 one_pos
  rw [List.getD_eq_getElem s 0 hlast]
  have h := hs.rel_get_of_le (a := ⟨k, hk⟩) (b := ⟨s.length - 1, hlast⟩)
    (by simp [Fin.mk_le_mk]; omega)
  simpa [List.get_eq_getElem] using h

lemma getD_mem (s : List ℚ) (i : ℕ) (hi : i < s.length) : s.getD i 0 ∈ s := by
  rw [List.getD_eq_getElem s 0 hi]
  exact List.getElem_mem hi

lemma pctIndex_mono (n : ℕ) {p q : ℚ} (hpq : p ≤ q) : pctIndex n p ≤ pctIndex n q := by
  unfold pctIndex
  have h : ⌊(n : ℚ) * p⌋ ≤ ⌊(n : ℚ) * q⌋ :=
    Int.floor_le_floor (mul_le_mul_of_nonneg_left hpq (by positivity))
  exact Int.toNat_le_toNat h

lemma pctIndex_lt (n : ℕ) (hn : 0 < n) {q : ℚ} (hq : q < 1) : pctIndex n q < n := by
  unfold pctIndex
  have h1 : ⌊(n : ℚ) * q⌋ < (n : ℤ) := by
    rw [Int.floor_lt]
    push_cast
    exact mul_lt_of_lt_one_right (by exact_mod_cast hn) hq
  omega

/-- C8: every percentile band produced by `computeTimeSeriesBands` on a
non-empty trial matrix whose rows cover all years satisfies
`p5 ≤ p25 ≤ p50 ≤ p75 ≤ p95`. -/
theorem computeTimeSeriesBands_band_ordering (paths : List (List ℚ)) (years : ℕ)
    (hne : paths ≠ []) (hrows : ∀ row ∈ paths, years + 1 ≤ row.length) :
    ∀ b ∈ computeTimeSeriesBands paths years,
      b.p5 ≤ b.p25 ∧ b.p25 ≤ b.p50 ∧ b.p50 ≤ b.p75 ∧ b.p75 ≤ b.p95 := by
  intro b hb
  simp only [computeTimeSeriesBands, List.mem_map] at hb
  obtain ⟨y, _, rfl⟩ := hb
  have hpos : 0 < paths.length := List.length_pos.mpr hne
  have hsort : ((paths.map fun row => row.getD y 0).insertionSort (· ≤ ·)).Sorted (· ≤ ·) :=
    List.sorted_insertionSort _ _
  have hlen : ((paths.map fun row => row.getD y 0).insertionSort (· ≤ ·)).length =
      paths.length := by
    rw [(List.perm_insertionSort _ _).length_eq, List.length_map]
  refine ⟨?_, ?_, ?_, ?_⟩ <;>
    exact sorted_getD_le _ hsort (pctIndex_mono _ (by norm_num))
      (by rw [hlen]; exact pctIndex_lt _ hpos (by norm_num))

/-- Witness for C8 at a concrete 2-trial, 1-year matrix. -/
theorem computeTimeSeriesBands_band_ordering_witness :
    (([[0, 1], [0, 2]] : List (List ℚ)) ≠ [] ∧
        (∀ row ∈ ([[0, 1], [0, 2]] : List (List ℚ)), 1 + 1 ≤ row.length)) ∧
      ∀ b ∈ computeTimeSeriesBands ([[0, 1], [0, 2]] : List (List ℚ)) 1,
        b.p5 ≤ b.p25 ∧ b.p25 ≤ b.p50 ∧ b.p50 ≤ b.p75 ∧ b.p75 ≤ b.p95 :=
  ⟨⟨by decide, by decide⟩,
    computeTimeSeriesBands_band_ordering [[0, 1], [0, 2]] 1 (by decide) (by decide)⟩

lemma runSimulation_ok (e : MonteCarloEngine) (rnd : ℕ → ℕ → ℕ) (p : SimulationParams)
    (hN : 0 ≤ p.numSimulations) (hY : 0 ≤ p.timeHorizon) :
    runSimulation e rnd p = Except.ok
      ((List.range p.numSimulations.toNat).map fun i =>
          calculateStockScenario p.monthlyInvestment (p.stockAllocation / 100)
            (generateReturnPath e (rnd i) p.timeHorizon.toNat) p.mortgageRate p.timeHorizon,
       (List.range p.numSimulations.toNat).map fun _ =>
          calculateMortgageScenario p.monthlyInvestment p.timeHorizon p.mortgageRate) := by
  unfold runSimulation
  rw [if_neg (by omega), if_neg (by omega)]

lemma runSimulationWithTimeSeries_ok (e : MonteCarloEngine) (rnd : ℕ → ℕ → ℕ)
    (p : SimulationParams) (hN : 0 ≤ p.numSimulations) (hY : 0 ≤ p.timeHorizon) :
    runSimulationWithTimeSeries e rnd p = Except.ok
      { stock := (List.range p.numSimulations.toNat).map fun i =>
          (calculateStockScenarioWithPath p.monthlyInvestment (p.stockAllocation / 100)
            (generateReturnPath e (rnd i) p.timeHorizon.toNat) p.mortgageRate p.timeHorizon).1
        mortgage := (List.range p.numSimulations.toNat).map fun _ =>
          calculateMortgageScenario p.monthlyInvestment p.timeHorizon p.mortgageRate
        stockPaths := (List.range p.numSimulations.toNat).map fun i =>
          (calculateStockScenarioWithPath p.monthlyInvestment (p.stockAllocation / 100)
            (generateReturnPath e (rnd i) p.timeHorizon.toNat) p.mortgageRate p.timeHorizon).2
        mortgagePath :=
          calculateMortgagePath p.monthlyInvestment p.timeHorizon p.mortgageRate } := by
  unfold runSimulationWithTimeSeries
  rw [if_neg (by omega), if_neg (by omega), if_neg (by omega)]

/-- C1 counterexample: at horizon 0 (non-positive) and allocation 150%
(fraction 1.5, outside `[0, 1]`) with one trial, both engine entry points
return successfully with full-shape output instead of failing with an
Invalid-Parameter error. -/
theorem runSimulation_accepts_invalid_params :
    InvalidParams ⟨10000, 0, 0.045, 150, 1⟩ ∧
      runSimulation ⟨[]⟩ (fun _ _ => 0) ⟨10000, 0, 0.045, 150, 1⟩ = Except.ok ([0], [0]) ∧
      runSimulationWithTimeSeries ⟨[]⟩ (fun _ _ => 0) ⟨10000, 0, 0.045, 150, 1⟩ =
        Except.ok ⟨[0], [0], [[0]], [0]⟩ := by
  refine ⟨by decide, ?_, ?_⟩
  · rw [runSimulation_ok _ _ _ (by decide) (by decide)]
    norm_num [calculateStockScenario, calculateMortgageScenario, calculateMortgageSavingsValue,
      stockLoop, generateReturnPath]
  · rw [runSimulationWithTimeSeries_ok _ _ _ (by decide) (by decide)]
    norm_num [calculateStockScenarioWithPath, calculateMortgageScenario, calculateMortgagePath,
      calculateMortgageSavingsValue, stockLoop, stockYearlyValues, generateReturnPath,
      TimeSeriesResult.mk.injEq]

/-- C1 (amended): the engine performs no parameter validation. For every
parameter record with nonnegative trial count and horizon — including horizon
0, trial count 0, and any allocation whatsoever — `runSimulation` and
`runSimulationWithTimeSeries` return successfully with outcome collections of
length `trialCount`; no Invalid-Parameter failure exists (the only reachable
failures are JavaScript range errors from negative array lengths). -/
theorem runSimulation_no_invalid_parameter_check (e : MonteCarloEngine) (rnd : ℕ → ℕ → ℕ)
    (p : SimulationParams) (hN : 0 ≤ p.numSimulations) (hY : 0 ≤ p.timeHorizon) :
    (∃ out, runSimulation e rnd p = Except.ok out ∧
        out.1.length = p.numSimulations.toNat ∧ out.2.length = p.numSimulations.toNat) ∧
      ∃ ts, runSimulationWithTimeSeries e rnd p = Except.ok ts ∧
        ts.stock.length = p.numSimulations.toNat ∧
        ts.mortgage.length = p.numSimulations.toNat := by
  refine ⟨⟨_, runSimulation_ok e rnd p hN hY, by simp, by simp⟩,
    ⟨_, runSimulationWithTimeSeries_ok e rnd p hN hY, by simp, by simp⟩⟩

/-- Witness for the amended C1 at an invalid parameter record (trial count 0,
horizon 0, allocation 150%). -/
theorem runSimulation_no_invalid_parameter_check_witness :
    ((0 : ℤ) ≤ (⟨10000, 0, 0.045, 150, 0⟩ : SimulationParams).numSimulations ∧
        (0 : ℤ) ≤ (⟨10000, 0, 0.045, 150, 0⟩ : SimulationParams).timeHorizon) ∧
      (∃ out, runSimulation ⟨[]⟩ (fun _ _ => 0) ⟨10000, 0, 0.045, 150, 0⟩ = Except.ok out ∧
          out.1.length = 0 ∧ out.2.length = 0) ∧
      ∃ ts, runSimulationWithTimeSeries ⟨[]⟩ (fun _ _ => 0) ⟨10000, 0, 0.045, 150, 0⟩ =
          Except.ok ts ∧ ts.stock.length = 0 ∧ ts.mortgage.length = 0 :=
  ⟨⟨by decide, by decide⟩,
    runSimulation_no_invalid_parameter_check ⟨[]⟩ (fun _ _ => 0) ⟨10000, 0, 0.045, 150, 0⟩
      (by decide) (by decide)⟩

/-- C2: for every valid parameter record, `runSimulation` returns stock and
mortgage outcome collections of length exactly `trialCount`, index-aligned so
that entry `i` of each collection is trial `i`'s stock and mortgage outcome. -/
theorem runSimulation_outcomes_length_aligned (e : MonteCarloEngine) (rnd : ℕ → ℕ → ℕ)
    (p : SimulationParams) (hv : ValidParams p) :
    ∃ s mtg, runSimulation e rnd p = Except.ok (s, mtg) ∧
      s.length = p.numSimulations.toNat ∧ mtg.length = p.numSimulations.toNat ∧
      ∀ i (hs : i < s.length) (hm : i < mtg.length),
        s.get ⟨i, hs⟩ =
          calculateStockScenario p.monthlyInvestment (p.stockAllocation / 100)
            (generateReturnPath e (rnd i) p.timeHorizon.toNat) p.mortgageRate p.timeHorizon ∧
        mtg.get ⟨i, hm⟩ =
          calculateMortgageScenario p.monthlyInvestment p.timeHorizon p.mortgageRate := by
  obtain ⟨_, hy, _, _, _, hn⟩ := hv
  refine ⟨_, _, runSimulation_ok e rnd p (by omega) (by omega), by simp, by simp, ?_⟩
  intro i hs hm
  constructor
  · rw [List.get_eq_getElem]
    simp
  · rw [List.get_eq_getElem]
    simp

/-- Witness for C2 at a concrete valid parameter record with two trials. -/
theorem runSimulation_outcomes_length_aligned_witness :
    ValidParams ⟨10000, 1, 0.045, 50, 2⟩ ∧
      ∃ s mtg, runSimulation ⟨[0.08]⟩ (fun _ _ => 0) ⟨10000, 1, 0.045, 50, 2⟩ =
          Except.ok (s, mtg) ∧
        s.length = 2 ∧ mtg.length = 2 ∧
        ∀ i (hs : i < s.length) (hm : i < mtg.length),
          s.get ⟨i, hs⟩ =
            calculateStockScenario 10000 (50 / 100)
              (generateReturnPath ⟨[0.08]⟩ (fun _ => 0) 1) 0.045 1 ∧
          mtg.get ⟨i, hm⟩ = calculateMortgageScenario 10000 1 0.045 :=
  ⟨by norm_num [ValidParams],
    runSimulation_outcomes_length_aligned ⟨[0.08]⟩ (fun _ _ => 0) ⟨10000, 1, 0.045, 50, 2⟩
      (by norm_num [ValidParams])⟩

/-- C3 counterexample: on the one-element collection `[1]` the statistics
object returned by `calculateStatistics` has no `count` field (property access
yields nothing), so the summary does not contain a count. -/
theorem calculateStatistics_missing_count :
    (calculateStatistics [1]).isSome = true ∧
      Option.bind (calculateStatistics [1]) (List.lookup "count") = none := by
  constructor
  · simp [calculateStatistics]
  · simp [calculateStatistics, List.lookup]

/-- C3 (amended): `calculateStatistics` returns `none` for an empty input; for
every non-empty input it returns a statistics object containing mean, median,
standard deviation, min, max and the p5/p25/p50/p75/p95 percentiles, with the
median equal to the p50 field — but no `count` field. -/
theorem calculateStatistics_fields (data : List ℚ) :
    (data = [] → calculateStatistics data = none) ∧
    (data ≠ [] →
      (calculateStatistics data).isSome = true ∧
      Option.bind (calculateStatistics data) (List.lookup "count") = none ∧
      (Option.bind (calculateStatistics data) (List.lookup "mean")).isSome = true ∧
      (Option.bind (calculateStatistics data) (List.lookup "median")).isSome = true ∧
      (Option.bind (calculateStatistics data) (List.lookup "stdDev")).isSome = true ∧
      (Option.bind (calculateStatistics data) (List.lookup "min")).isSome = true ∧
      (Option.bind (calculateStatistics data) (List.lookup "max")).isSome = true ∧
      (Option.bind (calculateStatistics data) (List.lookup "p5")).isSome = true ∧
      (Option.bind (calculateStatistics data) (List.lookup "p25")).isSome = true ∧
      (Option.bind (calculateStatistics data) (List.lookup "p75")).isSome = true ∧
      (Option.bind (calculateStatistics data) (List.lookup "p95")).isSome = true ∧
      Option.bind (calculateStatistics data) (List.lookup "median") =
        Option.bind (calculateStatistics data) (List.lookup "p50")) := by
  constructor
  · intro h
    subst h
    simp [calculateStatistics]
  · intro hne
    have hlen : ¬data.length = 0 := by
      simpa [List.length_eq_zero] using hne
    simp only [calculateStatistics, if_neg hlen]
    simp [List.lookup]

/-- Witness for the amended C3 at the concrete collection `[1, 2]`. -/
theorem calculateStatistics_fields_witness :
    ([1, 2] : List ℚ) ≠ [] ∧
      ((calculateStatistics [1, 2]).isSome = true ∧
        Option.bind (calculateStatistics [1, 2]) (List.lookup "count") = none ∧
        (Option.bind (calculateStatistics [1, 2]) (List.lookup "mean")).isSome = true ∧
        (Option.bind (calculateStatistics [1, 2]) (List.lookup "median")).isSome = true ∧
        (Option.bind (calculateStatistics [1, 2]) (List.lookup "stdDev")).isSome = true ∧
        (Option.bind (calculateStatistics [1, 2]) (List.lookup "min")).isSome = true ∧
        (Option.bind (calculateStatistics [1, 2]) (List.lookup "max")).isSome = true ∧
        (Option.bind (calculateStatistics [1, 2]) (List.lookup "p5")).isSome = true ∧
        (Option.bind (calculateStatistics [1, 2]) (List.lookup "p25")).isSome = true ∧
        (Option.bind (calculateStatistics [1, 2]) (List.lookup "p75")).isSome = true ∧
        (Option.bind (calculateStatistics [1, 2]) (List.lookup "p95")).isSome = true ∧
        Option.bind (calculateStatistics [1, 2]) (List.lookup "median") =
          Option.bind (calculateStatistics [1, 2]) (List.lookup "p50")) :=
  ⟨by decide, (calculateStatistics_fields [1, 2]).2 (by decide)⟩

lemma list_range_map_sum (B : ℕ) (F : ℕ → ℕ) :
    ((List.range B).map F).sum = ∑ i in Finset.range B, F i := rfl

lemma countP_index_partition (f : ℚ → ℕ) (B : ℕ) (l : List ℚ) (h : ∀ v ∈ l, f v < B) :
    (∑ i in Finset.range B, l.countP fun v => f v == i) = l.length := by
  induction l with
  | nil => simp
  | cons a t ih =>
    have ha : f a ∈ Finset.range B := Finset.mem_range.mpr (h a (by simp))
    have ht : ∀ v ∈ t, f v < B := fun v hv => h v (by simp [hv])
    simp only [List.countP_cons, List.length_cons]
    rw [Finset.sum_add_distrib, ih ht]
    have hsum : (∑ i in Finset.range B, if (f a == i) = true then 1 else 0) = 1 := by
      simp only [beq_iff_eq]
      rw [Finset.sum_ite_eq (Finset.range B) (f a) fun _ => 1, if_pos ha]
    rw [hsum]

lemma getD_range_map {α : Type} [Inhabited α] (g : ℕ → α) (B i : ℕ) (hi : i < B) :
    ((List.range B).map g).getD i default = g i := by
  rw [List.getD_eq_getElem _ _ (by simpa using hi)]
  simp

lemma binIndexOf_lt (mn w : ℚ) (B : ℕ) (hB : 1 ≤ B) (v : ℚ) : binIndexOf mn w B v < B :=
  lt_of_le_of_lt (Nat.min_le_right _ _) (by omega)

lemma calculateOptimalBins_pos (c : ℚ) (s : List ℚ) : 1 ≤ calculateOptimalBins c s := by
  unfold calculateOptimalBins
  exact le_trans (by norm_num) (le_max_left _ _)

lemma binDataProps_core (cbrtN : ℚ) (data : List ℚ) (B : ℕ) (hne : data ≠ [])
    (hB : 1 ≤ B) : BinProps data (binData cbrtN data (some B)) := by
  have hlen : ¬data.length = 0 := by simpa [List.length_eq_zero] using hne
  have hsort : (data.insertionSort (· ≤ ·)).Sorted (· ≤ ·) := List.sorted_insertionSort _ _
  have hperm : List.Perm (data.insertionSort (· ≤ ·)) data := List.perm_insertionSort _ _
  have hslen : (data.insertionSort (· ≤ ·)).length = data.length := hperm.length_eq
  have hspos : 0 < (data.insertionSort (· ≤ ·)).length := by omega
  have hmn_mem : (data.insertionSort (· ≤ ·)).getD 0 0 ∈ data :=
    hperm.mem_iff.mp (getD_mem _ 0 hspos)
  have hmx_mem :
      (data.insertionSort (· ≤ ·)).getD ((data.insertionSort (· ≤ ·)).length - 1) 0 ∈ data :=
    hperm.mem_iff.mp (getD_mem _ _ (by omega))
  have hmn_le : ∀ v ∈ data, (data.insertionSort (· ≤ ·)).getD 0 0 ≤ v := fun v hv =>
    sorted_getD_zero_le _ hsort v (hperm.mem_iff.mpr hv)
  have hmx_ge : ∀ v ∈ data,
      v ≤ (data.insertionSort (· ≤ ·)).getD ((data.insertionSort (· ≤ ·)).length - 1) 0 :=
    fun v hv => sorted_le_getD_last _ hsort v (hperm.mem_iff.mpr hv)
  have hmnmx : (data.insertionSort (· ≤ ·)).getD 0 0 ≤
      (data.insertionSort (· ≤ ·)).getD ((data.insertionSort (· ≤ ·)).length - 1) 0 :=
    sorted_getD_le _ hsort (Nat.zero_le _) (by omega)
  unfold BinProps
  simp only [binData]
  rw [if_neg hlen]
  by_cases hcase : (data.insertionSort (· ≤ ·)).getD 0 0 =
      (data.insertionSort (· ≤ ·)).getD ((data.insertionSort (· ≤ ·)).length - 1) 0
  · rw [if_pos hcase]
    refine ⟨by simp, ?_, ?_, ⟨?_, ?_⟩, ⟨?_, ?_⟩⟩
    · intro i hi
      simp at hi
    · intro i hi
      simp at hi
    · simpa using hmn_mem
    · simpa using hmn_le
    · simpa [hcase] using hmx_mem
    · simpa [hcase] using hmx_ge
  · rw [if_neg hcase]
    have hBQ : ((B : ℚ)) ≠ 0 := Nat.cast_ne_zero.mpr (by omega)
    have hw : 0 < ((data.insertionSort (· ≤ ·)).getD ((data.insertionSort (· ≤ ·)).length - 1) 0 -
        (data.insertionSort (· ≤ ·)).getD 0 0) / (B : ℚ) := by
      apply div_pos
      · exact sub_pos.mpr (lt_of_le_of_ne hmnmx hcase)
      · exact_mod_cast Nat.pos_of_ne_zero (by omega)
    refine ⟨?_, ?_, ?_, ⟨?_, ?_⟩, ⟨?_, ?_⟩⟩
    · rw [List.map_map]
      have hx := countP_index_partition
        (binIndexOf ((data.insertionSort (· ≤ ·)).getD 0 0)
          (((data.insertionSort (· ≤ ·)).getD ((data.insertionSort (· ≤ ·)).length - 1) 0 -
              (data.insertionSort (· ≤ ·)).getD 0 0) / (B : ℚ)) B)
        B (data.insertionSort (· ≤ ·)) (fun v _ => binIndexOf_lt _ _ B hB v)
      rw [← list_range_map_sum] at hx
      exact hx.trans hslen
    · intro i hi
      have hiB : i + 1 < B := by simpa using hi
      rw [getD_range_map _ _ _ (by omega), getD_range_map _ _ _ hiB]
      show _ + ((i : ℚ) + 1) * _ = _ + ((i + 1 : ℕ) : ℚ) * _
      push_cast
      ring
    · intro i hi
      have hiB : i + 1 < B := by simpa using hi
      rw [getD_range_map _ _ _ (by omega), getD_range_map _ _ _ hiB]
      show _ + (i : ℚ) * _ < _ + ((i + 1 : ℕ) : ℚ) * _
      push_cast
      nlinarith [hw]
    · rw [getD_range_map _ _ _ (by omega)]
      simpa using hmn_mem
    · intro v hv
      rw [getD_range_map _ _ _ (by omega)]
      simpa using hmn_le v hv
    · simp only [List.length_map, List.length_range]
      rw [getD_range_map _ _ _ (by omega)]
      have hkey : (data.insertionSort (· ≤ ·)).getD 0 0 + (((B - 1 : ℕ) : ℚ) + 1) *
          (((data.insertionSort (· ≤ ·)).getD ((data.insertionSort (· ≤ ·)).length - 1) 0 -
              (data.insertionSort (· ≤ ·)).getD 0 0) / (B : ℚ)) =
          (data.insertionSort (· ≤ ·)).getD ((data.insertionSort (· ≤ ·)).length - 1) 0 := by
        rw [Nat.cast_sub hB]
        field_simp
      show (data.insertionSort (· ≤ ·)).getD 0 0 + (((B - 1 : ℕ) : ℚ) + 1) * _ ∈ data
      rw [hkey]
      exact hmx_mem
    · intro v hv
      simp only [List.length_map, List.length_range]
      rw [getD_range_map _ _ _ (by omega)]
      have hkey : (data.insertionSort (· ≤ ·)).getD 0 0 + (((B - 1 : ℕ) : ℚ) + 1) *
          (((data.insertionSort (· ≤ ·)).getD ((data.insertionSort (· ≤ ·)).length - 1) 0 -
              (data.insertionSort (· ≤ ·)).getD 0 0) / (B : ℚ)) =
          (data.insertionSort (· ≤ ·)).getD ((data.insertionSort (· ≤ ·)).length - 1) 0 := by
        rw [Nat.cast_sub hB]
        field_simp
      show v ≤ (data.insertionSort (· ≤ ·)).getD 0 0 + (((B - 1 : ℕ) : ℚ) + 1) * _
      rw [hkey]
      exact hmx_ge v hv

/-- C5: for every non-empty input, the histogram bins returned by `binData`
(auto bin count, or any explicitly requested positive bin count) have counts
summing to the input length, are contiguous, non-overlapping and ascending,
and span exactly from the input minimum to the input maximum. -/
theorem binData_partition_props (cbrtN : ℚ) (data : List ℚ) (numBinsArg : Option ℕ)
    (hne : data ≠ []) (harg : ∀ b, numBinsArg = some b → 1 ≤ b) :
    BinProps data (binData cbrtN data numBinsArg) := by
  cases numBinsArg with
  | none =>
    have h : binData cbrtN data none =
        binData cbrtN data
          (some (calculateOptimalBins cbrtN (data.insertionSort (· ≤ ·)))) := rfl
    rw [h]
    exact binDataProps_core cbrtN data _ hne (calculateOptimalBins_pos _ _)
  | some b => exact binDataProps_core cbrtN data b hne (harg b rfl)

/-- Witness for C5 at the concrete collection `[1, 3]` with two bins. -/
theorem binData_partition_props_witness :
    (([1, 3] : List ℚ) ≠ [] ∧ ∀ b, (some 2 : Option ℕ) = some b → 1 ≤ b) ∧
      BinProps [1, 3] (binData 0 [1, 3] (some 2)) :=
  ⟨⟨by decide, by simp⟩,
    binData_partition_props 0 [1, 3] (some 2) (by decide) (by simp)⟩
